import Mathlib

/-
Verification of the flask-pymongo multi-tenancy wrappers
(src/flask_pymongo/wrappers.py).

The file shallowly embeds the argument-rewriting logic of the
`Collection` wrapper: Python dicts become association lists with a
replace-or-append `dictSet` and `dict.update` becomes `dictUpdate`;
in-place mutation of caller-supplied dicts is made explicit by outcome
records that carry both the arguments delegated to the underlying
pymongo driver and the post-call state of the caller's objects; Python
exceptions (TypeError, NameError, AttributeError) become explicit error
values.  The pymongo driver itself and Flask are opaque external
collaborators: the model stops at the point of delegation and records
exactly which arguments would be handed over.
-/

set_option autoImplicit false

namespace FlaskPymongo

abbrev Key := String

/-- A primitive (non-dict) Python value as it appears in queries and
documents: a string, an integer, or `None`. -/
inductive BVal where
  | str : String → BVal
  | int : Int → BVal
  | null : BVal
deriving DecidableEq, Repr

/-- A Python dict, modelled as an association list in insertion order. -/
abbrev Dict := List (Key × BVal)

/-- A Python value at the points where the wrapper code dispatches with
`isinstance(x, dict)`: either a mapping or a bare non-mapping value
(`Value.scalar BVal.null` plays the role of Python `None`). -/
inductive Value where
  | dict : Dict → Value
  | scalar : BVal → Value
deriving DecidableEq, Repr

/-- Python dict lookup: the binding of the first occurrence of the key. -/
def dictGet : Dict → Key → Option BVal
  | [], _ => none
  | (k', v) :: rest, k => if k = k' then some v else dictGet rest k

/-- Python dict assignment `d[k] = v`: replace the binding in place if the
key is present, otherwise append it. -/
def dictSet : Dict → Key → BVal → Dict
  | [], k, v => [(k, v)]
  | (k', v') :: rest, k, v =>
      if k' = k then (k, v) :: rest else (k', v') :: dictSet rest k v

/-- Python `d.update(other)`: assign every binding of `other` into `d`,
in `other`'s insertion order. -/
def dictUpdate (d other : Dict) : Dict :=
  other.foldl (fun a p => dictSet a p.1 p.2) d

/-- Well-formedness of the association-list encoding: no duplicate keys.
Every real Python dict satisfies this. -/
def dictWF (d : Dict) : Prop := (d.map Prod.fst).Nodup

instance (d : Dict) : Decidable (dictWF d) := by
  unfold dictWF; infer_instance

/-- `big` contains every key/value pair of `sub` (lookup-wise). -/
def dictHasAll (big sub : Dict) : Prop :=
  ∀ k v, dictGet sub k = some v → dictGet big k = some v

/-- Truthiness of the `tenant_field` attribute as tested by
`if self.database.tenant_field:` — `None` and the empty dict are falsy. -/
def truthyTF : Option Dict → Bool
  | none => false
  | some d => !d.isEmpty

/-- Lookup inside a `Value`: a mapping looks up its key, a bare value
has no bindings. -/
def valueGet : Value → Key → Option BVal
  | .dict d, k => dictGet d k
  | .scalar _, _ => none

/-- A Python exception raised inside the wrapper before delegation. -/
inductive PyError where
  | typeError (msg : String)
  | nameError (missing : String)
  | attributeError (msg : String)
deriving DecidableEq, Repr

/-- The `doc_or_docs` argument of `insert`: one mapping or a
list/tuple of mappings. -/
inductive Docs where
  | single : Dict → Docs
  | seq : List Dict → Docs
deriving DecidableEq, Repr

/-- The documents a `Docs` value holds. -/
def Docs.allDicts : Docs → List Dict
  | .single d => [d]
  | .seq l => l

/-- The arguments `Collection.save` hands to `pymongo`'s `save`, together
with the post-call state of the caller's mapping.  `to_save.update(...)`
mutates in place, so the delegated document and the caller's object are
one and the same dict. -/
structure SaveOutcome (α : Type) where
  delegatedDoc : Dict
  toSaveAfter : Dict
  extra : α
deriving DecidableEq, Repr

/-- `Collection.save`: raises TypeError on a non-mapping, otherwise merges
the truthy tenant predicate into the document in place and delegates.
`extra` stands for the pass-through arguments
(`manipulate`, `safe`, `check_keys`, `**kwargs`). -/
def save {α : Type} (tf : Option Dict) (to_save : Value) (extra : α) :
    Except PyError (SaveOutcome α) :=
  match to_save with
  | .scalar _ => .error (.typeError "cannot save object of type")
  | .dict d =>
      if truthyTF tf then
        let d' := dictUpdate d (tf.getD [])
        .ok ⟨d', d', extra⟩
      else
        .ok ⟨d, d, extra⟩

/-- Outcome of `Collection.insert`.  `error` is a raised exception;
`delegated` is the argument pair handed to `super().save` when the code
reaches that call (`insert` delegates to the driver's `save`, and when
the predicate is falsy it falls through and returns `None` without
delegating at all); `docsAfter` is the post-call state of the caller's
document(s). -/
structure InsertOutcome (α : Type) where
  error : Option PyError
  delegated : Option (Docs × α)
  docsAfter : Docs
deriving DecidableEq, Repr

/-- `Collection.insert`: with a truthy predicate, a single document is
merged in place and delegated; a non-empty sequence has its first
document merged in place and then hits the undefined name
`updated_docsa` (NameError); with a falsy predicate the body of the
`if` is skipped and the function returns `None` without delegating. -/
def insert {α : Type} (tf : Option Dict) (docs : Docs) (extra : α) :
    InsertOutcome α :=
  if truthyTF tf then
    let P := tf.getD []
    match docs with
    | .seq [] => ⟨none, some (.seq [], extra), .seq []⟩
    | .seq (d :: rest) =>
        ⟨some (.nameError "updated_docsa"), none, .seq (dictUpdate d P :: rest)⟩
    | .single d =>
        let d' := dictUpdate d P
        ⟨none, some (.single d', extra), .single d'⟩
  else
    ⟨none, none, docs⟩

/-- The arguments `Collection.update` hands to `pymongo`'s `update`,
plus the post-call state of the caller's two mappings (mutated in
place, so equal to the delegated ones). -/
structure UpdateOutcome (α : Type) where
  delegatedSpec : Dict
  delegatedDoc : Dict
  specAfter : Dict
  docAfter : Dict
  extra : α
deriving DecidableEq, Repr

/-- `Collection.update`: TypeError on a non-mapping spec (checked first)
or document; then, when the predicate `is not None`, merges it in place
into both the query spec and the update document before delegating. -/
def update {α : Type} (tf : Option Dict) (spec document : Value) (extra : α) :
    Except PyError (UpdateOutcome α) :=
  match spec with
  | .scalar _ => .error (.typeError "spec must be an instance of dict")
  | .dict s =>
      match document with
      | .scalar _ => .error (.typeError "document must be an instance of dict")
      | .dict d =>
          match tf with
          | some P =>
              .ok ⟨dictUpdate s P, dictUpdate d P, dictUpdate s P, dictUpdate d P, extra⟩
          | none => .ok ⟨s, d, s, d, extra⟩

/-- The spec `Collection.remove` / `Collection.find_one` hand to the
driver, plus the post-call state of the caller's argument.  When the
caller passed a mapping the merge mutates it in place; when the caller
passed a bare value, the wrapper rebinds a fresh dict locally and the
caller's value is untouched. -/
structure SpecOutcome (α : Type) where
  delegatedSpec : Value
  specAfter : Value
  extra : α
deriving DecidableEq, Repr

/-- `Collection.remove`: with a truthy predicate, a non-mapping
`spec_or_id` (including `None`) is first normalized to a fresh dict
binding "_id" to it, then the predicate is merged in; a mapping is
merged in place.  With a falsy predicate the argument passes through
unchanged. -/
def remove {α : Type} (tf : Option Dict) (spec_or_id : Value) (extra : α) :
    SpecOutcome α :=
  if truthyTF tf then
    let P := tf.getD []
    match spec_or_id with
    | .dict s =>
        let s' := dictUpdate s P
        ⟨.dict s', .dict s', extra⟩
    | .scalar v =>
        ⟨.dict (dictUpdate [("_id", v)] P), .scalar v, extra⟩
  else
    ⟨spec_or_id, spec_or_id, extra⟩

/-- `Collection.find_one`: same argument rewriting as `remove` (the
logging call has no effect on the arguments), delegating to the
driver's `find_one`. -/
def find_one {α : Type} (tf : Option Dict) (spec_or_id : Value) (extra : α) :
    SpecOutcome α :=
  if truthyTF tf then
    let P := tf.getD []
    match spec_or_id with
    | .dict s =>
        let s' := dictUpdate s P
        ⟨.dict s', .dict s', extra⟩
    | .scalar v =>
        ⟨.dict (dictUpdate [("_id", v)] P), .scalar v, extra⟩
  else
    ⟨spec_or_id, spec_or_id, extra⟩

/-- Outcome of `Collection.find`: either an exception, or the positional
argument list unpacked into `super().find(*args, **kwargs)`. -/
structure FindOutcome (α : Type) where
  error : Option PyError
  delegated : Option (List Value × α)
deriving DecidableEq, Repr

/-- `Collection.find`: with a truthy predicate, an empty `args` tuple is
rebound to an empty dict, the predicate is merged into that dict, and
`*args` then unpacks the dict's keys as positional arguments; a
non-empty `args` is still a tuple, and `args.update(...)` raises
AttributeError.  With a falsy predicate the arguments pass through
unchanged. -/
def find {α : Type} (tf : Option Dict) (args : List Value) (extra : α) :
    FindOutcome α :=
  if truthyTF tf then
    match args with
    | [] =>
        let q := dictUpdate [] (tf.getD [])
        ⟨none, some (q.map (fun p => Value.scalar (.str p.1)), extra)⟩
    | _ :: _ =>
        ⟨some (.attributeError "tuple object has no attribute update"), none⟩
  else
    ⟨none, some (args, extra)⟩

/-- Outcome of `Collection.find_and_modify`.  `delegatedQuery` and
`delegatedUpdate` are handed to the driver; `queryAfter` is the
post-call state of the caller's query object when one was supplied
(the merge mutates it in place); `updateAfter` is the post-call state
of the caller's update argument (mutated in place only when it is a
mapping — otherwise the wrapper rebinds a fresh dict locally). -/
structure FamOutcome (α : Type) where
  delegatedQuery : Dict
  delegatedUpdate : Value
  queryAfter : Option Dict
  updateAfter : Value
  extra : α
deriving DecidableEq, Repr

/-- `Collection.find_and_modify`.  The `query` parameter's default value
is the mutable dict literal in the `def` line, one object shared by
every call that omits the argument; the model threads that object's
state explicitly: `defaultQuery` is its state before the call and the
second component of the result is its state after.  With a truthy
predicate the effective query (the caller's dict, or the shared
default) is merged in place; a non-mapping `update` is rebound to a
fresh empty dict; the predicate is merged into the update as well. -/
def find_and_modify {α : Type} (tf : Option Dict) (defaultQuery : Dict)
    (queryArg : Option Dict) (updateArg : Value) (extra : α) :
    FamOutcome α × Dict :=
  let q := queryArg.getD defaultQuery
  if truthyTF tf then
    let P := tf.getD []
    let q' := dictUpdate q P
    let u := match updateArg with
      | .dict d => d
      | .scalar _ => []
    let u' := dictUpdate u P
    let updAfter := match updateArg with
      | .dict d => Value.dict (dictUpdate d P)
      | .scalar v => Value.scalar v
    let newDefault := match queryArg with
      | some _ => defaultQuery
      | none => q'
    (⟨q', .dict u', queryArg.map (fun x => dictUpdate x P), updAfter, extra⟩, newDefault)
  else
    (⟨q, updateArg, queryArg, updateArg, extra⟩, defaultQuery)

/-- Result of `Collection.find_one_or_404`: either the Flask
`abort(404)` signal or the found document returned unchanged. -/
inductive FindOne404Result where
  | abort404
  | found (d : Dict)
deriving DecidableEq, Repr

/-- `Collection.find_one_or_404`: calls `self.find_one` (which performs
the predicate rewriting and hands the spec to the driver, here the
opaque function `driver`); on `None` it calls Flask's `abort(404)`,
otherwise it returns the document unchanged. -/
def find_one_or_404 {α : Type} (tf : Option Dict) (spec_or_id : Value)
    (extra : α) (driver : Value → α → Option Dict) : FindOne404Result :=
  let out := find_one tf spec_or_id extra
  match driver out.delegatedSpec out.extra with
  | none => .abort404
  | some d => .found d

/-- `Database` wrapper: holds the tenant predicate (`_tenant_field`,
default `None`). -/
structure Database where
  tenant_field : Option Dict
deriving DecidableEq, Repr

/-- `Collection` wrapper: keeps a back-reference to its owning
`Database` (pymongo's `self.__database`) and its (possibly dotted)
name. -/
structure Collection where
  database : Database
  name : String
deriving DecidableEq, Repr

/-- `Database.__getattr__` resolving to a collection: wraps it as
`Collection(self, name)`. -/
def Database.getattrCollection (db : Database) (name : String) : Collection :=
  ⟨db, name⟩

/-- `Collection.__getattr__` resolving to a sub-collection: pymongo
returns a collection named `self.name + "." + name`, and the wrapper
re-wraps it as `Collection(self.__database, attr.name)` — bound to the
same owning database. -/
def Collection.getattrSubcollection (c : Collection) (name : String) : Collection :=
  ⟨c.database, c.name ++ "." ++ name⟩

/-- `save` invoked through a collection handle reads the predicate from
the owning database. -/
def Collection.saveOp {α : Type} (c : Collection) (to_save : Value) (extra : α) :
    Except PyError (SaveOutcome α) :=
  save c.database.tenant_field to_save extra

/-- `insert` invoked through a collection handle. -/
def Collection.insertOp {α : Type} (c : Collection) (docs : Docs) (extra : α) :
    InsertOutcome α :=
  insert c.database.tenant_field docs extra

/-- `update` invoked through a collection handle. -/
def Collection.updateOp {α : Type} (c : Collection) (spec document : Value)
    (extra : α) : Except PyError (UpdateOutcome α) :=
  update c.database.tenant_field spec document extra

/-- `remove` invoked through a collection handle. -/
def Collection.removeOp {α : Type} (c : Collection) (spec_or_id : Value)
    (extra : α) : SpecOutcome α :=
  remove c.database.tenant_field spec_or_id extra

/-- `find_one` invoked through a collection handle. -/
def Collection.findOneOp {α : Type} (c : Collection) (spec_or_id : Value)
    (extra : α) : SpecOutcome α :=
  find_one c.database.tenant_field spec_or_id extra

/-- `find` invoked through a collection handle. -/
def Collection.findOp {α : Type} (c : Collection) (args : List Value)
    (extra : α) : FindOutcome α :=
  find c.database.tenant_field args extra

/-- `find_and_modify` invoked through a collection handle. -/
def Collection.famOp {α : Type} (c : Collection) (defaultQuery : Dict)
    (queryArg : Option Dict) (updateArg : Value) (extra : α) :
    FamOutcome α × Dict :=
  find_and_modify c.database.tenant_field defaultQuery queryArg updateArg extra

/-! ### Dictionary lemmas -/

theorem truthyTF_some {P : Dict} (h : P ≠ []) : truthyTF (some P) = true := by
  cases P with
  | nil => exact absurd rfl h
  | cons p rest => rfl

theorem dictGet_set_self (d : Dict) (k : Key) (v : BVal) :
    dictGet (dictSet d k v) k = some v := by
  induction d with
  | nil => simp [dictSet, dictGet]
  | cons p rest ih =>
      obtain ⟨k', v'⟩ := p
      by_cases h : k' = k
      · simp [dictSet, h, dictGet]
      · have h' : ¬ k = k' := fun hk => h hk.symm
        simp [dictSet, h, dictGet, h', ih]

theorem dictGet_set_ne {k k' : Key} (d : Dict) (v : BVal) (h : k ≠ k') :
    dictGet (dictSet d k' v) k = dictGet d k := by
  induction d with
  | nil => simp [dictSet, dictGet, h]
  | cons p rest ih =>
      obtain ⟨k₀, v₀⟩ := p
      by_cases h₀ : k₀ = k'
      · subst h₀
        simp [dictSet, dictGet, h]
      · simp [dictSet, h₀, dictGet, ih]

theorem dictGet_none_of_not_mem {d : Dict} {k : Key}
    (h : k ∉ d.map Prod.fst) : dictGet d k = none := by
  induction d with
  | nil => rfl
  | cons p rest ih =>
      obtain ⟨k', v'⟩ := p
      simp only [List.map_cons, List.mem_cons] at h
      push_neg at h
      simp [dictGet, h.1, ih h.2]

theorem not_mem_of_dictGet_none {d : Dict} {k : Key}
    (h : dictGet d k = none) : k ∉ d.map Prod.fst := by
  induction d with
  | nil => simp
  | cons p rest ih =>
      obtain ⟨k', v'⟩ := p
      simp only [dictGet] at h
      by_cases hk : k = k'
      · simp [hk] at h
      · simp only [if_neg hk] at h
        simp only [List.map_cons, List.mem_cons]
        push_neg
        exact ⟨hk, ih h⟩

theorem dictUpdate_not_mem {P : Dict} {k : Key} (d : Dict)
    (h : k ∉ P.map Prod.fst) : dictGet (dictUpdate d P) k = dictGet d k := by
  induction P generalizing d with
  | nil => rfl
  | cons p rest ih =>
      obtain ⟨k₀, v₀⟩ := p
      simp only [List.map_cons, List.mem_cons] at h
      push_neg at h
      show dictGet (dictUpdate (dictSet d k₀ v₀) rest) k = dictGet d k
      rw [ih _ h.2, dictGet_set_ne _ _ h.1]

theorem dictUpdate_get_mem {P : Dict} {k : Key} {v : BVal} (d : Dict)
    (hWF : dictWF P) (h : dictGet P k = some v) :
    dictGet (dictUpdate d P) k = some v := by
  induction P generalizing d with
  | nil => simp [dictGet] at h
  | cons p rest ih =>
      obtain ⟨k₀, v₀⟩ := p
      have hWF' : dictWF rest ∧ k₀ ∉ rest.map Prod.fst := by
        unfold dictWF at hWF ⊢
        simp only [List.map_cons, List.nodup_cons] at hWF
        exact ⟨hWF.2, hWF.1⟩
      show dictGet (dictUpdate (dictSet d k₀ v₀) rest) k = some v
      by_cases hk : k = k₀
      · subst hk
        simp only [dictGet, if_pos rfl] at h
        rw [dictUpdate_not_mem _ hWF'.2, dictGet_set_self]
        exact h
      · simp only [dictGet, if_neg hk] at h
        exact ih _ hWF'.1 h

theorem dictHasAll_update {P : Dict} (d : Dict) (hWF : dictWF P) :
    dictHasAll (dictUpdate d P) P :=
  fun _ _ h => dictUpdate_get_mem d hWF h

theorem dictUpdate_get_none {P : Dict} {k : Key} (d : Dict)
    (h : dictGet P k = none) : dictGet (dictUpdate d P) k = dictGet d k :=
  dictUpdate_not_mem d (not_mem_of_dictGet_none h)

/-- Merging the same well-formed predicate twice is lookup-equivalent to
merging it once. -/
theorem dictUpdate_idem_get {P : Dict} (d : Dict) (hWF : dictWF P) (k : Key) :
    dictGet (dictUpdate (dictUpdate d P) P) k = dictGet (dictUpdate d P) k := by
  cases h : dictGet P k with
  | none => exact dictUpdate_get_none _ h
  | some v => rw [dictUpdate_get_mem _ hWF h, dictUpdate_get_mem _ hWF h]

/-! ### Claim theorems -/

/-- Claim C1: with the tenant predicate unset (`tenant_field = None`),
every operation — `save`, `insert`, `update`, `remove`, `find_one`,
`find`, `find_and_modify` — leaves the caller's mappings unmutated and,
whenever it delegates to the underlying driver, passes exactly the
arguments the caller supplied.  The stated equalities exhibit the full
outcome of each operation: the post-call state of every caller object
equals its initial state, and every delegated argument equals the
supplied one (`insert` with an unset predicate performs no delegation
at all, so it delegates nothing different from what was supplied). -/
theorem C1_unset_predicate_passes_arguments_through {α : Type} (e : α) :
    (∀ d : Dict, save none (.dict d) e = .ok ⟨d, d, e⟩) ∧
    (∀ docs : Docs, insert none docs e = ⟨none, none, docs⟩) ∧
    (∀ s d : Dict, update none (.dict s) (.dict d) e = .ok ⟨s, d, s, d, e⟩) ∧
    (∀ v : Value, remove none v e = ⟨v, v, e⟩) ∧
    (∀ v : Value, find_one none v e = ⟨v, v, e⟩) ∧
    (∀ args : List Value, find none args e = ⟨none, some (args, e)⟩) ∧
    (∀ (dq : Dict) (qa : Option Dict) (ua : Value),
        find_and_modify none dq qa ua e = (⟨qa.getD dq, ua, qa, ua, e⟩, dq)) :=
  ⟨fun _ => rfl, fun _ => rfl, fun _ _ => rfl, fun _ => rfl, fun _ => rfl,
   fun _ => rfl, fun _ _ _ => rfl⟩

/-- Claim C2 (code bug): the corrected contract says `insert` always
returns the driver's result, and with a predicate set merges it into
every document of a sequence.  The code instead (a) with the predicate
unset falls through its `if` and returns `None` without ever delegating
to the driver, and (b) with the predicate set and a non-empty sequence
raises `NameError` on the undefined accumulator `updated_docsa`.  This
theorem evaluates the embedded code at both failing inputs. -/
theorem C2_insert_defect_eval :
    insert none (.single [("name", .str "a")]) (0 : Nat) =
      ⟨none, none, .single [("name", .str "a")]⟩ ∧
    (insert (some [("tenant", .str "t1")]) (.seq [[("name", .str "a")]])
        (0 : Nat)).error = some (.nameError "updated_docsa") :=
  ⟨rfl, rfl⟩

/-- Claim C3 (code bug for `find`): with a predicate set, `find` cannot
deliver a query containing the predicate's pairs: with positional
arguments present it calls `.update` on the `args` tuple and raises
AttributeError before any delegation; with no positional arguments it
rebinds `args` to the predicate dict and `*args` unpacks the dict's
keys, so the driver receives the bare key string "tenant" as its
query, not a mapping.  (`find_one`, `remove`, and `find_and_modify` do
merge the predicate into the delegated query; see the theorems for
claims C6, C9 and C10.) -/
theorem C3_find_defect_eval :
    (find (some [("tenant", .str "t1")]) [.dict [("name", .str "a")]]
        (0 : Nat)).error =
      some (.attributeError "tuple object has no attribute update") ∧
    find (some [("tenant", .str "t1")]) ([] : List Value) (0 : Nat) =
      ⟨none, some ([.scalar (.str "tenant")], 0)⟩ :=
  ⟨rfl, rfl⟩

/-- Claim C5: `save` with a non-mapping document, and `update` with a
non-mapping spec or non-mapping update document, raise TypeError for
any predicate state; the error outcome carries no delegated arguments,
mirroring the source where the `raise` precedes the `super()` call. -/
theorem C5_type_errors_raised_before_delegation {α : Type} (e : α) :
    (∀ (tf : Option Dict) (v : BVal),
        save tf (.scalar v) e =
          .error (.typeError "cannot save object of type")) ∧
    (∀ (tf : Option Dict) (v : BVal) (document : Value),
        update tf (.scalar v) document e =
          .error (.typeError "spec must be an instance of dict")) ∧
    (∀ (tf : Option Dict) (s : Dict) (v : BVal),
        update tf (.dict s) (.scalar v) e =
          .error (.typeError "document must be an instance of dict")) :=
  ⟨fun _ _ => rfl, fun _ _ _ => rfl, fun _ _ _ => rfl⟩

/-- Claim C8: a sub-collection reached by attribute chaining is a
`Collection` bound to the same owning `Database`, so every operation on
it reads the same `tenant_field` and behaves exactly like the same
operation on a handle obtained directly from the database. -/
theorem C8_subcollection_bound_to_same_database {α : Type}
    (db : Database) (n m direct : String) :
    ((db.getattrCollection n).getattrSubcollection m).database = db ∧
    (∀ (ts : Value) (e : α),
        ((db.getattrCollection n).getattrSubcollection m).saveOp ts e =
          (db.getattrCollection direct).saveOp ts e) ∧
    (∀ (docs : Docs) (e : α),
        ((db.getattrCollection n).getattrSubcollection m).insertOp docs e =
          (db.getattrCollection direct).insertOp docs e) ∧
    (∀ (s d : Value) (e : α),
        ((db.getattrCollection n).getattrSubcollection m).updateOp s d e =
          (db.getattrCollection direct).updateOp s d e) ∧
    (∀ (v : Value) (e : α),
        ((db.getattrCollection n).getattrSubcollection m).removeOp v e =
          (db.getattrCollection direct).removeOp v e) ∧
    (∀ (v : Value) (e : α),
        ((db.getattrCollection n).getattrSubcollection m).findOneOp v e =
          (db.getattrCollection direct).findOneOp v e) ∧
    (∀ (args : List Value) (e : α),
        ((db.getattrCollection n).getattrSubcollection m).findOp args e =
          (db.getattrCollection direct).findOp args e) ∧
    (∀ (dq : Dict) (qa : Option Dict) (ua : Value) (e : α),
        ((db.getattrCollection n).getattrSubcollection m).famOp dq qa ua e =
          (db.getattrCollection direct).famOp dq qa ua e) :=
  ⟨rfl, fun _ _ => rfl, fun _ _ => rfl, fun _ _ _ => rfl, fun _ _ => rfl,
   fun _ _ => rfl, fun _ _ => rfl, fun _ _ _ _ => rfl⟩

/-- Claim C4: with a set (non-empty, well-formed) tenant predicate `P`,
every document that `save` or `insert` delegates to the driver contains
every key/value pair of `P`, and `update` merges `P` into both the
delegated query spec and the delegated update document. -/
theorem C4_set_predicate_merged_into_documents {α : Type} (P : Dict)
    (hWF : dictWF P) (hne : P ≠ []) :
    (∀ (d : Dict) (e : α) (out : SaveOutcome α),
        save (some P) (.dict d) e = .ok out → dictHasAll out.delegatedDoc P) ∧
    (∀ (docs : Docs) (e : α) (ds : Docs) (e' : α),
        (insert (some P) docs e).delegated = some (ds, e') →
          ∀ d ∈ ds.allDicts, dictHasAll d P) ∧
    (∀ (s d : Dict) (e : α) (out : UpdateOutcome α),
        update (some P) (.dict s) (.dict d) e = .ok out →
          dictHasAll out.delegatedSpec P ∧ dictHasAll out.delegatedDoc P) := by
  have htr := truthyTF_some hne
  refine ⟨?_, ?_, ?_⟩
  · intro d e out h
    rw [show save (some P) (.dict d) e =
        .ok ⟨dictUpdate d P, dictUpdate d P, e⟩ from by simp [save, htr]] at h
    injection h with h
    subst h
    exact dictHasAll_update d hWF
  · intro docs e ds e' h d hd
    cases docs with
    | single d0 =>
        simp only [insert, htr, if_true, Option.getD_some] at h
        obtain ⟨h1, h2⟩ := Option.some.inj h |> Prod.mk.inj
        subst h1
        simp only [Docs.allDicts, List.mem_singleton] at hd
        subst hd
        exact dictHasAll_update d0 hWF
    | seq l =>
        cases l with
        | nil =>
            simp only [insert, htr, if_true] at h
            obtain ⟨h1, h2⟩ := Option.some.inj h |> Prod.mk.inj
            subst h1
            simp [Docs.allDicts] at hd
        | cons d0 rest =>
            simp only [insert, htr, if_true] at h
            exact absurd h (by simp)
  · intro s d e out h
    rw [show update (some P) (.dict s) (.dict d) e =
        .ok ⟨dictUpdate s P, dictUpdate d P, dictUpdate s P, dictUpdate d P, e⟩
        from rfl] at h
    injection h with h
    subst h
    exact ⟨dictHasAll_update s hWF, dictHasAll_update d hWF⟩

theorem C4_witness :
    dictGet (dictUpdate [("name", BVal.str "a")] [("tenant", BVal.str "t1")])
      "tenant" = some (BVal.str "t1") :=
  (C4_set_predicate_merged_into_documents (α := Nat) [("tenant", BVal.str "t1")]
      (by decide) (by decide)).1
    [("name", BVal.str "a")] 0
    ⟨dictUpdate [("name", BVal.str "a")] [("tenant", BVal.str "t1")],
     dictUpdate [("name", BVal.str "a")] [("tenant", BVal.str "t1")], 0⟩
    rfl "tenant" (BVal.str "t1") (by decide)

/-- Claim C6: with a set predicate `P`, `remove` and `find_one` given a
bare (non-mapping) value `v` — including `None` for an absent spec —
delegate the mapping binding "_id" to `v` merged with `P`, and that
call is equivalent (lookup-wise on the delegated spec) to making the
same call with that merged mapping supplied explicitly.  With the
predicate unset an absent (`None`) spec passes through unchanged, so
the underlying driver's default-spec semantics apply. -/
theorem C6_bare_identifier_normalized {α : Type} (P : Dict)
    (hWF : dictWF P) (hne : P ≠ []) :
    (∀ (v : BVal) (e : α),
        (remove (some P) (.scalar v) e).delegatedSpec =
          .dict (dictUpdate [("_id", v)] P) ∧
        (∀ k, valueGet ((remove (some P)
              (.dict (dictUpdate [("_id", v)] P)) e).delegatedSpec) k =
            valueGet ((remove (some P) (.scalar v) e).delegatedSpec) k)) ∧
    (∀ (v : BVal) (e : α),
        (find_one (some P) (.scalar v) e).delegatedSpec =
          .dict (dictUpdate [("_id", v)] P) ∧
        (∀ k, valueGet ((find_one (some P)
              (.dict (dictUpdate [("_id", v)] P)) e).delegatedSpec) k =
            valueGet ((find_one (some P) (.scalar v) e).delegatedSpec) k)) ∧
    (∀ e : α, (remove none (.scalar .null) e).delegatedSpec = .scalar .null) ∧
    (∀ e : α, (find_one none (.scalar .null) e).delegatedSpec = .scalar .null) := by
  have htr := truthyTF_some hne
  refine ⟨?_, ?_, fun _ => rfl, fun _ => rfl⟩
  · intro v e
    refine ⟨by simp [remove, htr], ?_⟩
    intro k
    rw [show (remove (some P) (.dict (dictUpdate [("_id", v)] P)) e).delegatedSpec
        = .dict (dictUpdate (dictUpdate [("_id", v)] P) P) from by simp [remove, htr]]
    rw [show (remove (some P) (.scalar v) e).delegatedSpec
        = .dict (dictUpdate [("_id", v)] P) from by simp [remove, htr]]
    exact dictUpdate_idem_get _ hWF k
  · intro v e
    refine ⟨by simp [find_one, htr], ?_⟩
    intro k
    rw [show (find_one (some P) (.dict (dictUpdate [("_id", v)] P)) e).delegatedSpec
        = .dict (dictUpdate (dictUpdate [("_id", v)] P) P) from by simp [find_one, htr]]
    rw [show (find_one (some P) (.scalar v) e).delegatedSpec
        = .dict (dictUpdate [("_id", v)] P) from by simp [find_one, htr]]
    exact dictUpdate_idem_get _ hWF k

theorem C6_witness :
    (remove (some [("tenant", BVal.str "t1")]) (.scalar (BVal.str "42"))
        (0 : Nat)).delegatedSpec =
      .dict (dictUpdate [("_id", BVal.str "42")] [("tenant", BVal.str "t1")]) :=
  ((C6_bare_identifier_normalized (α := Nat) [("tenant", BVal.str "t1")]
      (by decide) (by decide)).1 (BVal.str "42") 0).1

/-- Claim C7: `find_one_or_404` triggers Flask's `abort(404)` exactly
when the delegated `find_one` yields no document (the model's result is
either the single abort signal or the found document, so no other error
is raised), and otherwise returns the found document unchanged with no
abort. -/
theorem C7_find_one_or_404_aborts_or_returns {α : Type} (tf : Option Dict)
    (spec_or_id : Value) (e : α) (driver : Value → α → Option Dict) :
    (driver (find_one tf spec_or_id e).delegatedSpec
        (find_one tf spec_or_id e).extra = none →
      find_one_or_404 tf spec_or_id e driver = .abort404) ∧
    (∀ d : Dict,
      driver (find_one tf spec_or_id e).delegatedSpec
          (find_one tf spec_or_id e).extra = some d →
        find_one_or_404 tf spec_or_id e driver = .found d) := by
  constructor
  · intro h
    simp only [find_one_or_404]
    rw [h]
  · intro d h
    simp only [find_one_or_404]
    rw [h]

theorem C7_witness :
    find_one_or_404 (α := Nat) none (.scalar .null) 0 (fun _ _ => none) =
      .abort404 :=
  (C7_find_one_or_404_aborts_or_returns none (.scalar .null) 0
      (fun _ _ => none)).1 rfl

/-- Claim C9 (implicit): every predicate merge is performed by calling
`.update` on the caller-supplied mapping, mutating it in place; after
the call the caller's own document/spec/update object equals its
original contents merged with `P`, hence contains all of `P`'s pairs.
Covered: `save`, `insert` (single document), `update` (both spec and
document), `remove` and `find_one` with a mapping spec, and
`find_and_modify` with a supplied query and a mapping update. -/
theorem C9_merge_mutates_caller_mappings {α : Type} (P : Dict)
    (hWF : dictWF P) (hne : P ≠ []) :
    (∀ (d : Dict) (e : α) (out : SaveOutcome α),
        save (some P) (.dict d) e = .ok out →
          out.toSaveAfter = dictUpdate d P ∧ dictHasAll out.toSaveAfter P) ∧
    (∀ (d : Dict) (e : α),
        (insert (some P) (.single d) e).docsAfter = .single (dictUpdate d P) ∧
        dictHasAll (dictUpdate d P) P) ∧
    (∀ (s d : Dict) (e : α) (out : UpdateOutcome α),
        update (some P) (.dict s) (.dict d) e = .ok out →
          out.specAfter = dictUpdate s P ∧ out.docAfter = dictUpdate d P ∧
          dictHasAll out.specAfter P ∧ dictHasAll out.docAfter P) ∧
    (∀ (s : Dict) (e : α),
        (remove (some P) (.dict s) e).specAfter = .dict (dictUpdate s P) ∧
        dictHasAll (dictUpdate s P) P) ∧
    (∀ (s : Dict) (e : α),
        (find_one (some P) (.dict s) e).specAfter = .dict (dictUpdate s P) ∧
        dictHasAll (dictUpdate s P) P) ∧
    (∀ (dq q u : Dict) (e : α),
        (find_and_modify (some P) dq (some q) (.dict u) e).1.queryAfter =
            some (dictUpdate q P) ∧
        (find_and_modify (some P) dq (some q) (.dict u) e).1.updateAfter =
            .dict (dictUpdate u P) ∧
        dictHasAll (dictUpdate q P) P ∧ dictHasAll (dictUpdate u P) P) := by
  have htr := truthyTF_some hne
  refine ⟨?_, ?_, ?_, ?_, ?_, ?_⟩
  · intro d e out h
    rw [show save (some P) (.dict d) e =
        .ok ⟨dictUpdate d P, dictUpdate d P, e⟩ from by simp [save, htr]] at h
    injection h with h
    subst h
    exact ⟨rfl, dictHasAll_update d hWF⟩
  · intro d e
    exact ⟨by simp [insert, htr], dictHasAll_update d hWF⟩
  · intro s d e out h
    rw [show update (some P) (.dict s) (.dict d) e =
        .ok ⟨dictUpdate s P, dictUpdate d P, dictUpdate s P, dictUpdate d P, e⟩
        from rfl] at h
    injection h with h
    subst h
    exact ⟨rfl, rfl, dictHasAll_update s hWF, dictHasAll_update d hWF⟩
  · intro s e
    exact ⟨by simp [remove, htr], dictHasAll_update s hWF⟩
  · intro s e
    exact ⟨by simp [find_one, htr], dictHasAll_update s hWF⟩
  · intro dq q u e
    refine ⟨by simp [find_and_modify, htr], by simp [find_and_modify, htr],
      dictHasAll_update q hWF, dictHasAll_update u hWF⟩

theorem C9_witness :
    (insert (some [("tenant", BVal.str "t1")])
        (.single [("name", BVal.str "a")]) (0 : Nat)).docsAfter =
      .single (dictUpdate [("name", BVal.str "a")] [("tenant", BVal.str "t1")]) :=
  ((C9_merge_mutates_caller_mappings (α := Nat) [("tenant", BVal.str "t1")]
      (by decide) (by decide)).2.1 [("name", BVal.str "a")] 0).1

/-- Claim C10 (implicit): the `query={}` default of `find_and_modify` is
one dict object shared by every call that omits the query, and the
in-place predicate merge persists in it.  Starting from a fresh default,
a first call with predicate `P1` and omitted query leaves `P1`'s pairs
in the default object, so a second call with a different predicate `P2`
and omitted query delegates a query that still contains every pair of
`P1` whose key `P2` does not override — the two calls are not
independent. -/
theorem C10_shared_default_query_retains_predicate {α : Type} (P1 P2 : Dict)
    (hWF1 : dictWF P1) (hne1 : P1 ≠ []) (hne2 : P2 ≠ [])
    (u1 u2 : Value) (e1 e2 : α) :
    ∀ k v, dictGet P1 k = some v → dictGet P2 k = none →
      dictGet ((find_and_modify (some P2)
          (find_and_modify (some P1) [] none u1 e1).2
          none u2 e2).1.delegatedQuery) k = some v := by
  intro k v hv hnone
  have htr1 := truthyTF_some hne1
  have htr2 := truthyTF_some hne2
  rw [show (find_and_modify (some P1) ([] : Dict) none u1 e1).2 =
      dictUpdate [] P1 from by simp [find_and_modify, htr1]]
  rw [show (find_and_modify (some P2) (dictUpdate [] P1) none u2 e2).1.delegatedQuery =
      dictUpdate (dictUpdate [] P1) P2 from by simp [find_and_modify, htr2]]
  rw [dictUpdate_get_none _ hnone]
  exact dictUpdate_get_mem _ hWF1 hv

theorem C10_witness :
    dictGet ((find_and_modify (some [("region", BVal.str "eu")])
        (find_and_modify (some [("tenant", BVal.str "t1")]) []
          none (Value.scalar .null) (0 : Nat)).2
        none (Value.scalar .null) 0).1.delegatedQuery) "tenant" =
      some (BVal.str "t1") :=
  C10_shared_default_query_retains_predicate
    [("tenant", BVal.str "t1")] [("region", BVal.str "eu")]
    (by decide) (by decide) (by decide)
    (Value.scalar .null) (Value.scalar .null) 0 0
    "tenant" (BVal.str "t1") (by decide) (by decide)

end FlaskPymongo
